import Mathlib

/-!
Shallow embedding of the interval-workout timer core of this repository.

The tick state machine is taken from src/App.tsx (the RUNNING-gated
setInterval callback, lines 76-104); the same tick body appears verbatim in
the worker-driven variant (src/unnamed/part_001, worker.onmessage, lines
187-207) and in src/unnamed/part_000, part_002, part_003, part_004.
The dedicated timer web worker is src/services/timerWorker.ts.
The AppState enumeration is src/types.ts.

JavaScript caveat: with intervalDuration = 0 the source computes
newTotal % 0 = NaN, so every theorem about the tick assumes
1 <= intervalDuration; the spec itself requires intervalSeconds >= 1.
-/

/-- The five-valued application state enum of src/types.ts. -/
inductive AppState
  | IDLE
  | GENERATING_AUDIO
  | READY
  | RUNNING
  | PAUSED
deriving DecidableEq

/-- The timer-related React state hooks of src/App.tsx (lines 25-32)
gathered into one record: appState, totalSecondsElapsed,
currentIntervalElapsed, cycleCount. -/
structure AppTimer where
  appState : AppState
  totalSecondsElapsed : Nat
  currentIntervalElapsed : Nat
  cycleCount : Nat
deriving DecidableEq

/-- The six cue identifiers (the AudioAssets keys of src/types.ts):
spoken Five..One plus the next/go cue. -/
inductive Cue
  | five
  | four
  | three
  | two
  | one
  | next
deriving DecidableEq

/-- src/App.tsx line 82: `timeInCurrentCycle = newTotal % intervalDuration`. -/
def timeInCurrentCycle (intervalDuration total : Nat) : Nat :=
  total % intervalDuration

/-- src/App.tsx line 84:
`effectiveTime = timeInCurrentCycle === 0 ? intervalDuration : timeInCurrentCycle`. -/
def effectiveTime (intervalDuration total : Nat) : Nat :=
  if timeInCurrentCycle intervalDuration total = 0 then intervalDuration
  else timeInCurrentCycle intervalDuration total

/-- src/App.tsx line 87: `timeRemaining = intervalDuration - effectiveTime`.
Since effectiveTime <= intervalDuration (for intervalDuration >= 1) the
truncated Nat subtraction agrees with the JS subtraction. -/
def timeRemaining (intervalDuration total : Nat) : Nat :=
  intervalDuration - effectiveTime intervalDuration total

/-- The trigger block of src/App.tsx lines 90-98 as a function of the
computed timeRemaining: each of the six `if` statements contributes its
cue when its threshold matches. -/
def cuesFor (timeRemaining : Nat) : List Cue :=
  (if timeRemaining = 5 then [Cue.five] else []) ++
  (if timeRemaining = 4 then [Cue.four] else []) ++
  (if timeRemaining = 3 then [Cue.three] else []) ++
  (if timeRemaining = 2 then [Cue.two] else []) ++
  (if timeRemaining = 1 then [Cue.one] else []) ++
  (if timeRemaining = 0 then [Cue.next] else [])

/-- The cues emitted by a tick whose new total elapsed seconds is `total`. -/
def cuesAt (intervalDuration total : Nat) : List Cue :=
  cuesFor (timeRemaining intervalDuration total)

/-- One tick of src/App.tsx lines 76-104: the setInterval callback runs only
while appState === RUNNING (the effect registers the interval in that state
only and clears it on cleanup), increments totalSecondsElapsed, fires the
threshold cues, bumps cycleCount when timeRemaining is 0, and updates
currentIntervalElapsed (line 100). Outside RUNNING no interval exists, so a
tick step leaves the state untouched and emits nothing. -/
def appTick (intervalDuration : Nat) (s : AppTimer) : AppTimer × List Cue :=
  if s.appState = AppState.RUNNING then
    let newTotal := s.totalSecondsElapsed + 1
    let effective := effectiveTime intervalDuration newTotal
    let remaining := timeRemaining intervalDuration newTotal
    ({ appState := s.appState
       totalSecondsElapsed := newTotal
       currentIntervalElapsed := if effective = intervalDuration then 0 else effective
       cycleCount := if remaining = 0 then s.cycleCount + 1 else s.cycleCount },
     cuesFor remaining)
  else (s, [])

/-- The session start state: a session begins with totalSecondsElapsed = 0,
currentIntervalElapsed = 0, cycleCount = 1 (src/App.tsx lines 30-32) and
phase RUNNING. -/
def initialRunning : AppTimer :=
  { appState := AppState.RUNNING
    totalSecondsElapsed := 0
    currentIntervalElapsed := 0
    cycleCount := 1 }

/-- n consecutive ticks from the session start state. -/
def runTicks (intervalDuration : Nat) : Nat → AppTimer
  | 0 => initialRunning
  | n + 1 => (appTick intervalDuration (runTicks intervalDuration n)).1

/-- src/App.tsx lines 112-118: toggleTimer pauses a RUNNING session and
starts/resumes otherwise; it touches only appState. -/
def toggleTimer (s : AppTimer) : AppTimer :=
  if s.appState = AppState.RUNNING then { s with appState := AppState.PAUSED }
  else { s with appState := AppState.RUNNING }

/-- src/unnamed/part_004 lines 226-231 (identically src/unnamed/part_000,
part_001, part_002, part_003): resetTimer returns to the IDLE setup view and
zeroes every counter (cycleCount back to 1). -/
def resetTimer (_s : AppTimer) : AppTimer :=
  { appState := AppState.IDLE
    totalSecondsElapsed := 0
    currentIntervalElapsed := 0
    cycleCount := 1 }

/-- src/App.tsx lines 120-125: the App.tsx variant of resetTimer; it differs
from the part_004 variant only in returning to READY (the main screen with
audio already loaded) instead of IDLE. -/
def resetTimerApp (_s : AppTimer) : AppTimer :=
  { appState := AppState.READY
    totalSecondsElapsed := 0
    currentIntervalElapsed := 0
    cycleCount := 1 }

/-- The commands accepted by src/services/timerWorker.ts self.onmessage. -/
inductive WCommand
  | start (value : Nat)
  | pause
  | reset
  | updateDuration (value : Nat)
deriving DecidableEq

/-- src/unnamed/part_001 lines 234-240: startSession resumes the audio
context, unconditionally sets appState to RUNNING, and posts
start(intervalDuration) to the worker. No validation of intervalDuration
is performed; the counters are untouched. -/
def startSession (intervalDuration : Nat) (s : AppTimer) : AppTimer × List WCommand :=
  ({ s with appState := AppState.RUNNING }, [WCommand.start intervalDuration])

/-- The mutable module-level state of src/services/timerWorker.ts lines 3-6:
totalSecondsElapsed, intervalDuration, isRunning, and whether intervalId
currently holds a live interval (timerActive models intervalId being
defined). -/
structure WorkerState where
  totalSecondsElapsed : Nat
  intervalDuration : Nat
  isRunning : Bool
  timerActive : Bool
deriving DecidableEq

/-- src/services/timerWorker.ts lines 8-34: the onmessage command handler.
start is guarded by !isRunning; pause is guarded by isRunning; reset
unconditionally clears the interval and zeroes totalSecondsElapsed;
updateDuration overwrites intervalDuration only. -/
def onmessage (s : WorkerState) : WCommand → WorkerState
  | WCommand.start v =>
    if s.isRunning then s
    else { s with isRunning := true, intervalDuration := v, timerActive := true }
  | WCommand.pause =>
    if s.isRunning then { s with isRunning := false, timerActive := false }
    else s
  | WCommand.reset =>
    { s with isRunning := false, timerActive := false, totalSecondsElapsed := 0 }
  | WCommand.updateDuration v =>
    { s with intervalDuration := v }

/-- Events the worker can experience: an incoming command message, or the
firing of its periodic interval (timerWorker.ts lines 15-18). A cleared
interval never fires, so tickFire is a no-op when no timer is active. -/
inductive WEvent
  | msg (c : WCommand)
  | tickFire
deriving DecidableEq

/-- Whether an event is a start command message. -/
def WEvent.isStart : WEvent → Bool
  | WEvent.msg (WCommand.start _) => true
  | _ => false

/-- One worker event step; the second component lists the payloads of the
tick messages posted back to the page (timerWorker.ts line 17 posts the
incremented totalSecondsElapsed). -/
def wStep (s : WorkerState) : WEvent → WorkerState × List Nat
  | WEvent.msg c => (onmessage s c, [])
  | WEvent.tickFire =>
    if s.timerActive then
      ({ s with totalSecondsElapsed := s.totalSecondsElapsed + 1 },
       [s.totalSecondsElapsed + 1])
    else (s, [])

/-- Process a list of worker events in order, collecting all emitted tick
messages. -/
def wRun (s : WorkerState) : List WEvent → WorkerState × List Nat
  | [] => (s, [])
  | e :: evs =>
    let p := wStep s e
    let q := wRun p.1 evs
    (q.1, p.2 ++ q.2)

/-- With a positive interval the normalized cycle position never exceeds the
interval. -/
lemma effectiveTime_le (d total : Nat) (hd : 1 ≤ d) :
    effectiveTime d total ≤ d := by
  unfold effectiveTime timeInCurrentCycle
  have h := Nat.mod_lt total hd
  split <;> omega

/-- With a positive interval the normalized cycle position is at least 1. -/
lemma effectiveTime_pos (d total : Nat) (hd : 1 ≤ d) :
    1 ≤ effectiveTime d total := by
  unfold effectiveTime timeInCurrentCycle
  split <;> omega

/-- The normalized position equals the interval exactly at cycle
boundaries (zero remainder). -/
lemma effectiveTime_eq_iff (d total : Nat) (hd : 1 ≤ d) :
    effectiveTime d total = d ↔ total % d = 0 := by
  unfold effectiveTime timeInCurrentCycle
  have h := Nat.mod_lt total hd
  split <;> omega

/-- timeRemaining is always below the interval length. -/
lemma timeRemaining_lt (d total : Nat) (hd : 1 ≤ d) :
    timeRemaining d total < d := by
  unfold timeRemaining
  have h1 := effectiveTime_pos d total hd
  have h2 := effectiveTime_le d total hd
  omega

/-- timeRemaining hits 0 exactly at cycle boundaries. -/
lemma timeRemaining_eq_zero_iff (d total : Nat) (hd : 1 ≤ d) :
    timeRemaining d total = 0 ↔ total % d = 0 := by
  unfold timeRemaining
  have h2 := effectiveTime_le d total hd
  rw [← effectiveTime_eq_iff d total hd]
  omega

/-- The displayed value of src/App.tsx line 100 equals the plain remainder. -/
lemma display_eq_mod (d t : Nat) (hd : 1 ≤ d) :
    (if effectiveTime d t = d then 0 else effectiveTime d t) = t % d := by
  unfold effectiveTime timeInCurrentCycle
  have h2 := Nat.mod_lt t hd
  by_cases h : t % d = 0
  · simp [h]
  · rw [if_neg h, if_neg (by omega)]

/-- Unfolding of one tick in the RUNNING state. -/
lemma appTick_running (d : Nat) (s : AppTimer) (h : s.appState = AppState.RUNNING) :
    appTick d s =
      ({ appState := AppState.RUNNING
         totalSecondsElapsed := s.totalSecondsElapsed + 1
         currentIntervalElapsed :=
           if effectiveTime d (s.totalSecondsElapsed + 1) = d then 0
           else effectiveTime d (s.totalSecondsElapsed + 1)
         cycleCount :=
           if timeRemaining d (s.totalSecondsElapsed + 1) = 0 then s.cycleCount + 1
           else s.cycleCount },
       cuesFor (timeRemaining d (s.totalSecondsElapsed + 1))) := by
  simp [appTick, h]

/-- Outside RUNNING a tick step is the identity and emits nothing. -/
lemma appTick_not_running (d : Nat) (s : AppTimer)
    (h : ¬ s.appState = AppState.RUNNING) :
    appTick d s = (s, []) := by
  simp [appTick, h]

/-- Closed form of the session after n ticks. -/
lemma runTicks_eq (d : Nat) (hd : 1 ≤ d) (n : Nat) :
    runTicks d n =
      { appState := AppState.RUNNING
        totalSecondsElapsed := n
        currentIntervalElapsed := n % d
        cycleCount := 1 + n / d } := by
  induction n with
  | zero => simp [runTicks, initialRunning]
  | succ n ih =>
    rw [runTicks, ih, appTick_running d _ rfl]
    have hdisp := display_eq_mod d (n + 1) hd
    have hiff := timeRemaining_eq_zero_iff d (n + 1) hd
    have hdvd : d ∣ n + 1 ↔ (n + 1) % d = 0 := Nat.dvd_iff_mod_eq_zero
    have hsucc := Nat.succ_div n d
    simp only [AppTimer.mk.injEq, true_and]
    refine ⟨hdisp, ?_⟩
    by_cases h0 : (n + 1) % d = 0
    · rw [if_pos (hiff.mpr h0), hsucc, if_pos (hdvd.mpr h0)]
      omega
    · rw [if_neg (fun hz => h0 (hiff.mp hz)), hsucc,
          if_neg (fun hv => h0 (hdvd.mp hv))]
      omega

/-- Within one pass through an interval (the ticks with total in
(k*d, (k+1)*d]) the normalized position is the offset from the pass start. -/
lemma effectiveTime_in_pass (d k t : Nat) (_hd : 1 ≤ d)
    (h1 : k * d < t) (h2 : t ≤ (k + 1) * d) :
    effectiveTime d t = t - k * d := by
  have hs : (k + 1) * d = k * d + d := by ring
  have ht : t = (t - k * d) + k * d := by omega
  have hmod : t % d = (t - k * d) % d := by
    conv_lhs => rw [ht]
    exact Nat.add_mul_mod_self_right (t - k * d) k d
  unfold effectiveTime timeInCurrentCycle
  by_cases hr : t - k * d = d
  · rw [hmod, hr, Nat.mod_self, if_pos rfl]
  · have hlt : t - k * d < d := by omega
    rw [hmod, Nat.mod_eq_of_lt hlt, if_neg (by omega)]

/-- Within one pass through an interval, timeRemaining never repeats. -/
lemma timeRemaining_inj_on_pass (d k t1 t2 : Nat) (hd : 1 ≤ d)
    (h11 : k * d < t1) (h12 : t1 ≤ (k + 1) * d)
    (h21 : k * d < t2) (h22 : t2 ≤ (k + 1) * d)
    (heq : timeRemaining d t1 = timeRemaining d t2) : t1 = t2 := by
  have hs : (k + 1) * d = k * d + d := by ring
  have e1 := effectiveTime_in_pass d k t1 hd h11 h12
  have e2 := effectiveTime_in_pass d k t2 hd h21 h22
  unfold timeRemaining at heq
  rw [e1, e2] at heq
  omega

/-- Case analysis of the trigger block as a function of timeRemaining. -/
lemma cuesFor_spec (r : Nat) :
    (cuesFor r ≠ [] ↔ (r = 5 ∨ r = 4 ∨ r = 3 ∨ r = 2 ∨ r = 1 ∨ r = 0)) ∧
    (r = 5 → cuesFor r = [Cue.five]) ∧
    (r = 4 → cuesFor r = [Cue.four]) ∧
    (r = 3 → cuesFor r = [Cue.three]) ∧
    (r = 2 → cuesFor r = [Cue.two]) ∧
    (r = 1 → cuesFor r = [Cue.one]) ∧
    (r = 0 → cuesFor r = [Cue.next]) := by
  rcases Nat.lt_or_ge r 6 with h6 | h6
  · interval_cases r <;> decide
  · have h : cuesFor r = [] := by
      unfold cuesFor
      rw [if_neg (by omega), if_neg (by omega), if_neg (by omega),
          if_neg (by omega), if_neg (by omega), if_neg (by omega)]
      rfl
    refine ⟨?_, fun hr => absurd hr (by omega), fun hr => absurd hr (by omega),
            fun hr => absurd hr (by omega), fun hr => absurd hr (by omega),
            fun hr => absurd hr (by omega), fun hr => absurd hr (by omega)⟩
    rw [h]
    constructor
    · intro hne; exact absurd rfl hne
    · intro hor; omega

/-- A dormant worker (no live interval) stays dormant and silent under any
non-start event, and a zero counter stays zero. -/
lemma wStep_dormant (s : WorkerState) (e : WEvent)
    (hA : s.timerActive = false) (hT : s.totalSecondsElapsed = 0)
    (he : e.isStart = false) :
    (wStep s e).2 = [] ∧ (wStep s e).1.timerActive = false ∧
    (wStep s e).1.totalSecondsElapsed = 0 := by
  cases e with
  | tickFire => simp [wStep, hA, hT]
  | msg c =>
    cases c with
    | start v => simp [WEvent.isStart] at he
    | pause => by_cases hr : s.isRunning <;> simp [wStep, onmessage, hr, hA, hT]
    | reset => simp [wStep, onmessage]
    | updateDuration v => simp [wStep, onmessage, hA, hT]

/-- A dormant worker with a zero counter emits no ticks and keeps the zero
counter across any sequence of non-start events. -/
lemma wRun_dormant (evs : List WEvent) :
    ∀ s : WorkerState, s.timerActive = false → s.totalSecondsElapsed = 0 →
      (∀ e ∈ evs, e.isStart = false) →
      (wRun s evs).2 = [] ∧ (wRun s evs).1.totalSecondsElapsed = 0 := by
  induction evs with
  | nil => intro s _ hT _; exact ⟨rfl, hT⟩
  | cons e evs ih =>
    intro s hA hT h
    have he : e.isStart = false := h e (List.mem_cons_self e evs)
    have hrest : ∀ x ∈ evs, x.isStart = false :=
      fun x hx => h x (List.mem_cons_of_mem e hx)
    have hstep := wStep_dormant s e hA hT he
    have hrec := ih (wStep s e).1 hstep.2.1 hstep.2.2 hrest
    constructor
    · show (wStep s e).2 ++ (wRun (wStep s e).1 evs).2 = []
      rw [hstep.1, hrec.1]
      rfl
    · exact hrec.2

/-- The three-phase state machine of the spec (sections 3-4): Idle means no
active session, Running means ticking, Paused means frozen. This is the
abstraction map from the code's five AppState values: RUNNING and PAUSED map
to their spec phases, while IDLE, GENERATING_AUDIO and READY are all
"no active session" and map to Idle. -/
inductive SpecPhase
  | Idle
  | Running
  | Paused
deriving DecidableEq

/-- Abstraction of the code-level AppState to the spec's phase. -/
def specPhase : AppState → SpecPhase
  | AppState.RUNNING => SpecPhase.Running
  | AppState.PAUSED => SpecPhase.Paused
  | _ => SpecPhase.Idle

/-- C1: from the initial session state (totalElapsedSeconds = 0,
cycleCount = 1), for every intervalSeconds >= 1 and every n, after n
consecutive ticks cycleCount equals 1 + floor(n / intervalSeconds); and a
single tick from any Running state increments cycleCount by exactly 1 when
the new total is a positive multiple of the interval, leaving it unchanged
otherwise. -/
theorem cycleCount_counts_intervals (d n : Nat) (hd : 1 ≤ d) :
    (runTicks d n).cycleCount = 1 + n / d ∧
    (∀ s : AppTimer, s.appState = AppState.RUNNING →
       (appTick d s).1.cycleCount =
         (if (s.totalSecondsElapsed + 1) % d = 0 then s.cycleCount + 1
          else s.cycleCount)) := by
  constructor
  · rw [runTicks_eq d hd n]
  · intro s h
    have key : (appTick d s).1.cycleCount =
        (if timeRemaining d (s.totalSecondsElapsed + 1) = 0 then s.cycleCount + 1
         else s.cycleCount) := by
      rw [appTick_running d s h]
    rw [key]
    have hiff := timeRemaining_eq_zero_iff d (s.totalSecondsElapsed + 1) hd
    by_cases h0 : (s.totalSecondsElapsed + 1) % d = 0
    · rw [if_pos (hiff.mpr h0), if_pos h0]
    · rw [if_neg (fun hz => h0 (hiff.mp hz)), if_neg h0]

/-- Witness for C1 at intervalSeconds = 3 and n = 7 ticks
(Scenario C in the spec). -/
theorem cycleCount_counts_intervals_witness :
    1 ≤ 3 ∧
    ((runTicks 3 7).cycleCount = 1 + 7 / 3 ∧
     (∀ s : AppTimer, s.appState = AppState.RUNNING →
        (appTick 3 s).1.cycleCount =
          (if (s.totalSecondsElapsed + 1) % 3 = 0 then s.cycleCount + 1
           else s.cycleCount))) :=
  ⟨by decide, cycleCount_counts_intervals 3 7 (by decide)⟩

/-- C4: on every tick the externally observable current-interval-elapsed
value becomes 0 exactly when effectiveTime equals the interval (a new
interval begins), and becomes effectiveTime on every other tick. -/
theorem display_resets_at_boundary (d : Nat) (s : AppTimer) (hd : 1 ≤ d)
    (h : s.appState = AppState.RUNNING) :
    ((appTick d s).1.currentIntervalElapsed = 0 ↔
       effectiveTime d (s.totalSecondsElapsed + 1) = d) ∧
    (effectiveTime d (s.totalSecondsElapsed + 1) ≠ d →
       (appTick d s).1.currentIntervalElapsed
         = effectiveTime d (s.totalSecondsElapsed + 1)) := by
  have key : (appTick d s).1.currentIntervalElapsed =
      (if effectiveTime d (s.totalSecondsElapsed + 1) = d then 0
       else effectiveTime d (s.totalSecondsElapsed + 1)) := by
    rw [appTick_running d s h]
  rw [key]
  have h1 := effectiveTime_pos d (s.totalSecondsElapsed + 1) hd
  constructor
  · constructor
    · intro h0
      by_contra hne
      rw [if_neg hne] at h0
      omega
    · intro he
      rw [if_pos he]
  · intro hne
    rw [if_neg hne]

/-- Witness for C4 at intervalSeconds = 10 on the tick that completes the
first interval (Scenario B in the spec). -/
theorem display_resets_at_boundary_witness :
    1 ≤ 10 ∧
    (⟨AppState.RUNNING, 9, 9, 1⟩ : AppTimer).appState = AppState.RUNNING ∧
    (((appTick 10 ⟨AppState.RUNNING, 9, 9, 1⟩).1.currentIntervalElapsed = 0 ↔
        effectiveTime 10 ((⟨AppState.RUNNING, 9, 9, 1⟩ : AppTimer).totalSecondsElapsed + 1) = 10) ∧
     (effectiveTime 10 ((⟨AppState.RUNNING, 9, 9, 1⟩ : AppTimer).totalSecondsElapsed + 1) ≠ 10 →
        (appTick 10 ⟨AppState.RUNNING, 9, 9, 1⟩).1.currentIntervalElapsed
          = effectiveTime 10 ((⟨AppState.RUNNING, 9, 9, 1⟩ : AppTimer).totalSecondsElapsed + 1))) :=
  ⟨by decide, rfl, display_resets_at_boundary 10 ⟨AppState.RUNNING, 9, 9, 1⟩ (by decide) rfl⟩

/-- C5: for every intervalSeconds >= 1 and every totalElapsedSeconds, the
derived effectiveTime satisfies 0 <= effectiveTime <= intervalSeconds and
the derived timeRemaining lies in [0, intervalSeconds). -/
theorem effective_time_bounds (d total : Nat) (hd : 1 ≤ d) :
    0 ≤ effectiveTime d total ∧ effectiveTime d total ≤ d ∧
    0 ≤ timeRemaining d total ∧ timeRemaining d total < d :=
  ⟨Nat.zero_le _, effectiveTime_le d total hd, Nat.zero_le _,
   timeRemaining_lt d total hd⟩

/-- Witness for C5 at intervalSeconds = 10, totalElapsedSeconds = 25. -/
theorem effective_time_bounds_witness :
    1 ≤ 10 ∧
    (0 ≤ effectiveTime 10 25 ∧ effectiveTime 10 25 ≤ 10 ∧
     0 ≤ timeRemaining 10 25 ∧ timeRemaining 10 25 < 10) :=
  ⟨by decide, effective_time_bounds 10 25 (by decide)⟩

/-- C2: on every tick a cue is emitted iff the computed timeRemaining is one
of the six fixed thresholds 5,4,3,2,1,0; each threshold maps to its own cue
(the six cue identifiers are pairwise distinct); and within one pass through
an interval (new totals in (k*d, (k+1)*d]) timeRemaining never repeats, so
each threshold fires at most once per interval. -/
theorem cue_thresholds_exact (d : Nat) (hd : 1 ≤ d) :
    (∀ total, cuesAt d total ≠ [] ↔
       (timeRemaining d total = 5 ∨ timeRemaining d total = 4 ∨
        timeRemaining d total = 3 ∨ timeRemaining d total = 2 ∨
        timeRemaining d total = 1 ∨ timeRemaining d total = 0)) ∧
    (∀ total,
       (timeRemaining d total = 5 → cuesAt d total = [Cue.five]) ∧
       (timeRemaining d total = 4 → cuesAt d total = [Cue.four]) ∧
       (timeRemaining d total = 3 → cuesAt d total = [Cue.three]) ∧
       (timeRemaining d total = 2 → cuesAt d total = [Cue.two]) ∧
       (timeRemaining d total = 1 → cuesAt d total = [Cue.one]) ∧
       (timeRemaining d total = 0 → cuesAt d total = [Cue.next])) ∧
    ([Cue.five, Cue.four, Cue.three, Cue.two, Cue.one, Cue.next] : List Cue).Nodup ∧
    (∀ k t1 t2, k * d < t1 → t1 ≤ (k + 1) * d → k * d < t2 → t2 ≤ (k + 1) * d →
       timeRemaining d t1 = timeRemaining d t2 → t1 = t2) :=
  ⟨fun total => (cuesFor_spec (timeRemaining d total)).1,
   fun total => (cuesFor_spec (timeRemaining d total)).2,
   by decide,
   fun k t1 t2 h11 h12 h21 h22 heq =>
     timeRemaining_inj_on_pass d k t1 t2 hd h11 h12 h21 h22 heq⟩

/-- Witness for C2 at intervalSeconds = 10. -/
theorem cue_thresholds_exact_witness :
    1 ≤ 10 ∧
    ((∀ total, cuesAt 10 total ≠ [] ↔
        (timeRemaining 10 total = 5 ∨ timeRemaining 10 total = 4 ∨
         timeRemaining 10 total = 3 ∨ timeRemaining 10 total = 2 ∨
         timeRemaining 10 total = 1 ∨ timeRemaining 10 total = 0)) ∧
     (∀ total,
        (timeRemaining 10 total = 5 → cuesAt 10 total = [Cue.five]) ∧
        (timeRemaining 10 total = 4 → cuesAt 10 total = [Cue.four]) ∧
        (timeRemaining 10 total = 3 → cuesAt 10 total = [Cue.three]) ∧
        (timeRemaining 10 total = 2 → cuesAt 10 total = [Cue.two]) ∧
        (timeRemaining 10 total = 1 → cuesAt 10 total = [Cue.one]) ∧
        (timeRemaining 10 total = 0 → cuesAt 10 total = [Cue.next])) ∧
     ([Cue.five, Cue.four, Cue.three, Cue.two, Cue.one, Cue.next] : List Cue).Nodup ∧
     (∀ k t1 t2, k * 10 < t1 → t1 ≤ (k + 1) * 10 → k * 10 < t2 → t2 ≤ (k + 1) * 10 →
        timeRemaining 10 t1 = timeRemaining 10 t2 → t1 = t2)) :=
  ⟨by decide, cue_thresholds_exact 10 (by decide)⟩

/-- C6: from every Running state, pause changes only the phase: the three
counters are preserved, a tick step while Paused leaves the state untouched,
and after resuming the next tick continues from the preserved total (one more
than before the pause), not from 0. -/
theorem pause_only_changes_phase (d : Nat) (s : AppTimer)
    (h : s.appState = AppState.RUNNING) :
    (toggleTimer s).appState = AppState.PAUSED ∧
    (toggleTimer s).totalSecondsElapsed = s.totalSecondsElapsed ∧
    (toggleTimer s).currentIntervalElapsed = s.currentIntervalElapsed ∧
    (toggleTimer s).cycleCount = s.cycleCount ∧
    appTick d (toggleTimer s) = (toggleTimer s, []) ∧
    (toggleTimer (toggleTimer s)).appState = AppState.RUNNING ∧
    (appTick d (toggleTimer (toggleTimer s))).1.totalSecondsElapsed
      = s.totalSecondsElapsed + 1 := by
  have h1 : toggleTimer s = { s with appState := AppState.PAUSED } := by
    simp [toggleTimer, h]
  have h2 : toggleTimer (toggleTimer s) = { s with appState := AppState.RUNNING } := by
    rw [h1]
    simp [toggleTimer]
  refine ⟨by rw [h1], by rw [h1], by rw [h1], by rw [h1], ?_, by rw [h2], ?_⟩
  · rw [h1]
    exact appTick_not_running d _ (by simp)
  · rw [h2, appTick_running d _ rfl]

/-- Witness for C6: pause after tick 4 of an intervalSeconds = 10 session
(Scenario D in the spec). -/
theorem pause_only_changes_phase_witness :
    (⟨AppState.RUNNING, 4, 4, 1⟩ : AppTimer).appState = AppState.RUNNING ∧
    ((toggleTimer ⟨AppState.RUNNING, 4, 4, 1⟩).appState = AppState.PAUSED ∧
     (toggleTimer ⟨AppState.RUNNING, 4, 4, 1⟩).totalSecondsElapsed
       = (⟨AppState.RUNNING, 4, 4, 1⟩ : AppTimer).totalSecondsElapsed ∧
     (toggleTimer ⟨AppState.RUNNING, 4, 4, 1⟩).currentIntervalElapsed
       = (⟨AppState.RUNNING, 4, 4, 1⟩ : AppTimer).currentIntervalElapsed ∧
     (toggleTimer ⟨AppState.RUNNING, 4, 4, 1⟩).cycleCount
       = (⟨AppState.RUNNING, 4, 4, 1⟩ : AppTimer).cycleCount ∧
     appTick 10 (toggleTimer ⟨AppState.RUNNING, 4, 4, 1⟩)
       = (toggleTimer ⟨AppState.RUNNING, 4, 4, 1⟩, []) ∧
     (toggleTimer (toggleTimer ⟨AppState.RUNNING, 4, 4, 1⟩)).appState
       = AppState.RUNNING ∧
     (appTick 10 (toggleTimer (toggleTimer ⟨AppState.RUNNING, 4, 4, 1⟩))).1.totalSecondsElapsed
       = (⟨AppState.RUNNING, 4, 4, 1⟩ : AppTimer).totalSecondsElapsed + 1) :=
  ⟨rfl, pause_only_changes_phase 10 ⟨AppState.RUNNING, 4, 4, 1⟩ rfl⟩

/-- C3 counterexample: startSession performs no validation. Called with
intervalDuration = 0 from the idle initial state, the session is NOT
rejected: the phase becomes RUNNING (it does not stay IDLE), so the claim
that a non-positive configuration is rejected before entering Running fails
on the code. -/
theorem start_zero_enters_running :
    (startSession 0 ⟨AppState.IDLE, 0, 0, 1⟩).1.appState = AppState.RUNNING ∧
    AppState.RUNNING ≠ AppState.IDLE :=
  ⟨rfl, by decide⟩

/-- C3 amended: startSession never validates the configured interval. For
every intervalDuration (including 0) and every prior state it transitions
the phase to Running, posts the start command carrying that interval to the
worker, and leaves totalSecondsElapsed, currentIntervalElapsed and
cycleCount untouched. -/
theorem start_no_validation (d : Nat) (s : AppTimer) :
    (startSession d s).1.appState = AppState.RUNNING ∧
    (startSession d s).1.totalSecondsElapsed = s.totalSecondsElapsed ∧
    (startSession d s).1.currentIntervalElapsed = s.currentIntervalElapsed ∧
    (startSession d s).1.cycleCount = s.cycleCount ∧
    (startSession d s).2 = [WCommand.start d] :=
  ⟨rfl, rfl, rfl, rfl, rfl⟩

/-- C7: after the worker handles a reset command its counter is 0, and
across any subsequent sequence of events containing no start command it
emits no tick messages and the counter stays 0; moreover on any worker state
whose live-interval flag agrees with isRunning (an invariant of all
reachable states), handling a pause command leaves no live interval, so no
previously scheduled tick can apply afterwards. -/
theorem reset_stops_tick_delivery (s : WorkerState) (evs : List WEvent)
    (h : ∀ e ∈ evs, e.isStart = false) :
    (wStep s (WEvent.msg WCommand.reset)).1.totalSecondsElapsed = 0 ∧
    (wRun (wStep s (WEvent.msg WCommand.reset)).1 evs).2 = [] ∧
    (wRun (wStep s (WEvent.msg WCommand.reset)).1 evs).1.totalSecondsElapsed = 0 ∧
    (s.timerActive = s.isRunning →
       (wStep s (WEvent.msg WCommand.pause)).1.timerActive = false) := by
  have hA : (wStep s (WEvent.msg WCommand.reset)).1.timerActive = false := rfl
  have hT : (wStep s (WEvent.msg WCommand.reset)).1.totalSecondsElapsed = 0 := rfl
  have main := wRun_dormant evs _ hA hT h
  refine ⟨hT, main.1, main.2, ?_⟩
  intro hinv
  by_cases hr : s.isRunning
  · simp [wStep, onmessage, hr]
  · have hfalse : s.isRunning = false := by
      revert hr
      cases s.isRunning <;> simp
    simp [wStep, onmessage, hfalse, hinv]

/-- Witness for C7: a running worker handles reset, then experiences a tick
firing, a pause, another tick firing, a duration update and a final tick
firing; nothing is emitted and the counter stays 0. -/
theorem reset_stops_tick_delivery_witness :
    (∀ e ∈ ([WEvent.tickFire, WEvent.msg WCommand.pause, WEvent.tickFire,
             WEvent.msg (WCommand.updateDuration 5), WEvent.tickFire] : List WEvent),
       e.isStart = false) ∧
    ((wStep ⟨7, 10, true, true⟩ (WEvent.msg WCommand.reset)).1.totalSecondsElapsed = 0 ∧
     (wRun (wStep ⟨7, 10, true, true⟩ (WEvent.msg WCommand.reset)).1
        [WEvent.tickFire, WEvent.msg WCommand.pause, WEvent.tickFire,
         WEvent.msg (WCommand.updateDuration 5), WEvent.tickFire]).2 = [] ∧
     (wRun (wStep ⟨7, 10, true, true⟩ (WEvent.msg WCommand.reset)).1
        [WEvent.tickFire, WEvent.msg WCommand.pause, WEvent.tickFire,
         WEvent.msg (WCommand.updateDuration 5), WEvent.tickFire]).1.totalSecondsElapsed = 0 ∧
     ((⟨7, 10, true, true⟩ : WorkerState).timerActive
        = (⟨7, 10, true, true⟩ : WorkerState).isRunning →
       (wStep ⟨7, 10, true, true⟩ (WEvent.msg WCommand.pause)).1.timerActive = false)) :=
  ⟨by decide,
   reset_stops_tick_delivery ⟨7, 10, true, true⟩
     [WEvent.tickFire, WEvent.msg WCommand.pause, WEvent.tickFire,
      WEvent.msg (WCommand.updateDuration 5), WEvent.tickFire] (by decide)⟩

/-- C8: from every state, resetTimer returns to the spec's Idle phase and
sets totalSecondsElapsed = 0, cycleCount = 1 and the displayed
current-interval-elapsed value to 0. The part_004/part_001 variant lands on
the code state IDLE; the App.tsx variant lands on READY; both code states
abstract to the spec phase Idle (no active session). -/
theorem reset_returns_initial (s t : AppTimer) :
    resetTimer s = ⟨AppState.IDLE, 0, 0, 1⟩ ∧
    specPhase (resetTimer s).appState = SpecPhase.Idle ∧
    resetTimerApp t = ⟨AppState.READY, 0, 0, 1⟩ ∧
    specPhase (resetTimerApp t).appState = SpecPhase.Idle :=
  ⟨rfl, rfl, rfl, rfl⟩

/-- C9: resetTimer is idempotent, in both source variants. -/
theorem reset_idempotent (s : AppTimer) :
    resetTimer (resetTimer s) = resetTimer s ∧
    resetTimerApp (resetTimerApp s) = resetTimerApp s :=
  ⟨rfl, rfl⟩

/-- C10: a start command received while the worker is already running is a
complete no-op: the state (including intervalDuration, which silently drops
the carried value) is unchanged and nothing is emitted. -/
theorem start_while_running_is_noop (s : WorkerState) (v : Nat)
    (h : s.isRunning = true) :
    wStep s (WEvent.msg (WCommand.start v)) = (s, []) ∧
    (wStep s (WEvent.msg (WCommand.start v))).1.intervalDuration
      = s.intervalDuration := by
  have h1 : onmessage s (WCommand.start v) = s := by
    simp [onmessage, h]
  constructor
  · show (onmessage s (WCommand.start v), ([] : List Nat)) = (s, [])
    rw [h1]
  · show (onmessage s (WCommand.start v)).intervalDuration = s.intervalDuration
    rw [h1]

/-- Witness for C10: a running worker with interval 10 receives start(99);
its state, and in particular its interval, is unchanged. -/
theorem start_while_running_is_noop_witness :
    (⟨5, 10, true, true⟩ : WorkerState).isRunning = true ∧
    (wStep ⟨5, 10, true, true⟩ (WEvent.msg (WCommand.start 99))
       = (⟨5, 10, true, true⟩, []) ∧
     (wStep ⟨5, 10, true, true⟩ (WEvent.msg (WCommand.start 99))).1.intervalDuration
       = (⟨5, 10, true, true⟩ : WorkerState).intervalDuration) :=
  ⟨rfl, start_while_running_is_noop ⟨5, 10, true, true⟩ 99 rfl⟩
